import Mathlib

/-!
LenaHandoverSimulation: topology, traffic plan, handover counter and metrics reduction.

A shallow embedding of `FYP2_SimulationCode.cpp` (the `main` function and the trace
callbacks defined above it).

Conventions of the embedding:

* `uint16_t`, `uint32_t` and `uint64_t` values are natural numbers; where the C++
  arithmetic can wrap or a value is narrowed, the reduction `% 2 ^ w` is written out.
* `double` values are idealised as exact rationals (`ℚ`) in the metrics reduction and
  as elements of an arbitrary field (instantiated with `ℝ`) in the kinematics.
* Calls into the ns-3 stack are recorded as data (the calls made, the addresses
  built); the stack itself is not modelled.
-/

namespace LenaHandoverSimulation

/-! ## Metrics reduction (source lines 344-367) -/

/-- The part of a flow-monitor entry the reduction reads: the destination port of the
flow's five-tuple (`uint16_t`) and the received byte count (`uint64_t`). -/
structure FlowRecord where
  destinationPort : Nat
  rxBytes : Nat
deriving DecidableEq

/-- Source line 258: `uint16_t dlPort = 10000;`. -/
def dlPort : Nat := 10000

/-- Source line 259: `uint16_t ulPort = 20000;`. -/
def ulPort : Nat := 20000

/-- The port filter of source line 349,
`t.destinationPort >= dlPort && t.destinationPort < dlPort + numberOfUes`.
Both operands of `+` are `uint16_t`, so the sum is computed in `int` and cannot wrap. -/
def isDlPort (numberOfUes : Nat) (destinationPort : Nat) : Bool :=
  decide (destinationPort ≥ dlPort) && decide (destinationPort < dlPort + numberOfUes)

/-- One iteration of the loop of source lines 346-352: `totalDlBytes += rxBytes` on a
`uint64_t` accumulator when the port filter accepts the flow. -/
def addFlow (numberOfUes : Nat) (totalDlBytes : Nat) (f : FlowRecord) : Nat :=
  if isDlPort numberOfUes f.destinationPort then (totalDlBytes + f.rxBytes) % 2 ^ 64
  else totalDlBytes

/-- The loop of source lines 344-352 over the flow statistics, starting from
`uint64_t totalDlBytes = 0`. -/
def totalDlBytes (numberOfUes : Nat) (stats : List FlowRecord) : Nat :=
  stats.foldl (addFlow numberOfUes) 0

/-- A division the reduction evaluated: its numerator and its denominator. -/
structure Division where
  num : ℚ
  den : ℚ
deriving DecidableEq

/-- Source line 353: `(totalDlBytes * 8.0) / (simulationTimeSeconds * 1e6)`, together
with the division it evaluates. The division is not guarded by any test; for a zero
duration the `double` quotient is an infinity or a NaN, so the rational value of this
definition is meaningful for a nonzero duration only. -/
def totalThroughputMbps (totalDlBytes : Nat) (simulationTimeSeconds : ℚ) :
    ℚ × List Division :=
  (((totalDlBytes : ℚ) * 8) / (simulationTimeSeconds * 1000000),
    [⟨(totalDlBytes : ℚ) * 8, simulationTimeSeconds * 1000000⟩])

/-- Source lines 357-360: `anoh` starts at `0.0` and is overwritten by
`(double) g_handoverCount / (numberOfUes * simulationTimeSeconds)` only inside the guard
`numberOfUes > 0 && simulationTimeSeconds > 0`; the second component lists the
divisions evaluated. -/
def anoh (g_handoverCount numberOfUes : Nat) (simulationTimeSeconds : ℚ) :
    ℚ × List Division :=
  if 0 < numberOfUes ∧ 0 < simulationTimeSeconds then
    ((g_handoverCount : ℚ) / ((numberOfUes : ℚ) * simulationTimeSeconds),
      [⟨(g_handoverCount : ℚ), (numberOfUes : ℚ) * simulationTimeSeconds⟩])
  else (0, [])

/-- Source lines 362-367: `optimizeRatio = totalThroughputMbps / anoh` inside the guard
`anoh > 0.0`; otherwise the "N/A" line is printed and no ratio exists. -/
def optimizeRatio (throughputMbps anohValue : ℚ) : Option ℚ × List Division :=
  if 0 < anohValue then (some (throughputMbps / anohValue), [⟨throughputMbps, anohValue⟩])
  else (none, [])

/-- What the reduction prints, and the divisions it evaluated, in program order. -/
structure RunMetrics where
  totalDlBytes : Nat
  totalThroughputMbps : ℚ
  anoh : ℚ
  optimizeRatio : Option ℚ
  divisions : List Division
deriving DecidableEq

/-- Source lines 344-367 as one function of the flow statistics, the handover counter,
the terminal count and the duration in seconds. -/
def reduceMetrics (stats : List FlowRecord) (g_handoverCount numberOfUes : Nat)
    (simulationTimeSeconds : ℚ) : RunMetrics :=
  let total := totalDlBytes numberOfUes stats
  let thr := totalThroughputMbps total simulationTimeSeconds
  let a := anoh g_handoverCount numberOfUes simulationTimeSeconds
  let r := optimizeRatio thr.1 a.1
  { totalDlBytes := total
    totalThroughputMbps := thr.1
    anoh := a.1
    optimizeRatio := r.1
    divisions := thr.2 ++ a.2 ++ r.2 }

/-- The literal scenario of the specification: two downlink flows and one uplink flow. -/
def literalStats : List FlowRecord :=
  [⟨10000, 125000⟩, ⟨10001, 125000⟩, ⟨20000, 999⟩]

/-- The byte counts of the flows whose destination port lies in
`[dlPort, dlPort + numberOfUes)`. -/
def dlByteCounts (numberOfUes : Nat) (stats : List FlowRecord) : List Nat :=
  (stats.filter (fun f => decide (dlPort ≤ f.destinationPort ∧
    f.destinationPort < dlPort + numberOfUes))).map FlowRecord.rxBytes

/-! ## Traffic installation (source lines 258-302) -/

/-- The port of `InetSocketAddress(..., dlPort + u)` (source lines 270 and 278): `u` is
the `uint32_t` loop index, so the sum is a 32-bit unsigned sum, and the constructor
takes the port as a `uint16_t`. -/
def dlPortOf (u : Nat) : Nat := ((dlPort + u) % 2 ^ 32) % 2 ^ 16

/-- The port of `InetSocketAddress(..., ulPort + u)` (source lines 288 and 295). -/
def ulPortOf (u : Nat) : Nat := ((ulPort + u) % 2 ^ 32) % 2 ^ 16

/-- Direction of an installed flow. -/
inductive Direction where
  | downlink
  | uplink
deriving DecidableEq

/-- A flow installed by the traffic loop: the terminal index, the direction and the
destination port of the sink. -/
structure InstalledFlow where
  ue : Nat
  direction : Direction
  destinationPort : Nat
deriving DecidableEq

/-- The body of the loop of source lines 263-302 for terminal `u`: a downlink flow
unless `disableDl`, then an uplink flow unless `disableUl`. -/
def installUeTraffic (disableDl disableUl : Bool) (u : Nat) : List InstalledFlow :=
  (if !disableDl then [⟨u, Direction.downlink, dlPortOf u⟩] else []) ++
  (if !disableUl then [⟨u, Direction.uplink, ulPortOf u⟩] else [])

/-- The loop `for (uint32_t u = 0; u < ueNodes.GetN(); ++u)` of source line 263, where
`ueNodes` holds `numberOfUes` nodes (source line 185). -/
def installTraffic (numberOfUes : Nat) (disableDl disableUl : Bool) : List InstalledFlow :=
  ((List.range numberOfUes).map (installUeTraffic disableDl disableUl)).flatten

/-! ## Handover counter and trace callbacks (source lines 16-61, 319-330) -/

/-- The callbacks defined in source lines 20-61. -/
inductive Handler where
  | HandoverEndOkCounter
  | NotifyConnectionEstablishedUe
  | NotifyHandoverStartUe
  | NotifyHandoverEndOkUe
  | NotifyConnectionEstablishedEnb
  | NotifyHandoverStartEnb
  | NotifyHandoverEndOkEnb
  | NotifyHandoverFailure
deriving DecidableEq

/-- One invocation of a callback: the callback invoked and the arguments passed
(`targetCellId` is only passed to the two handover-start callbacks). -/
structure Notification where
  handler : Handler
  context : String
  imsi : Nat
  cellId : Nat
  rnti : Nat
  targetCellId : Option Nat
deriving DecidableEq

/-- The `Config::Connect` calls of source lines 319-330: trace path and callback. -/
def registrations : List (String × Handler) :=
  [("/NodeList/*/DeviceList/*/LteEnbRrc/ConnectionEstablished", Handler.NotifyConnectionEstablishedEnb),
   ("/NodeList/*/DeviceList/*/LteUeRrc/ConnectionEstablished", Handler.NotifyConnectionEstablishedUe),
   ("/NodeList/*/DeviceList/*/LteEnbRrc/HandoverStart", Handler.NotifyHandoverStartEnb),
   ("/NodeList/*/DeviceList/*/LteUeRrc/HandoverStart", Handler.NotifyHandoverStartUe),
   ("/NodeList/*/DeviceList/*/LteEnbRrc/HandoverEndOk", Handler.NotifyHandoverEndOkEnb),
   ("/NodeList/*/DeviceList/*/LteUeRrc/HandoverEndOk", Handler.NotifyHandoverEndOkUe),
   ("/NodeList/*/DeviceList/*/LteUeRrc/HandoverEndOk", Handler.HandoverEndOkCounter),
   ("/NodeList/*/DeviceList/*/LteEnbRrc/HandoverFailureNoPreamble", Handler.NotifyHandoverFailure),
   ("/NodeList/*/DeviceList/*/LteEnbRrc/HandoverFailureMaxRach", Handler.NotifyHandoverFailure),
   ("/NodeList/*/DeviceList/*/LteEnbRrc/HandoverFailureLeaving", Handler.NotifyHandoverFailure),
   ("/NodeList/*/DeviceList/*/LteEnbRrc/HandoverFailureJoining", Handler.NotifyHandoverFailure)]

/-- The callbacks that appear in a `Config::Connect` call. -/
def registered (h : Handler) : Bool := decide (h ∈ registrations.map Prod.snd)

/-- The state the callbacks act on: the global `uint32_t g_handoverCount` and the lines
written to standard output (a line is determined by the notification that printed it). -/
structure CallbackState where
  g_handoverCount : Nat
  printed : List Notification
deriving DecidableEq

/-- Source line 17: `static uint32_t g_handoverCount = 0;`, nothing printed yet. -/
def initialState : CallbackState := ⟨0, []⟩

/-- One callback invocation. `HandoverEndOkCounter` executes `g_handoverCount++` on a
`uint32_t` and prints nothing; every other callback prints one line and does not touch
the counter. -/
def deliver (s : CallbackState) (n : Notification) : CallbackState :=
  match n.handler with
  | Handler.HandoverEndOkCounter =>
      { s with g_handoverCount := (s.g_handoverCount + 1) % 2 ^ 32 }
  | _ => { s with printed := s.printed ++ [n] }

/-- The state after a finite sequence of callback invocations, in delivery order. -/
def run (ns : List Notification) : CallbackState := ns.foldl deliver initialState

/-- How many of the notifications were delivered to `HandoverEndOkCounter`. -/
def endOkCount (ns : List Notification) : Nat :=
  ns.countP (fun n => decide (n.handler = Handler.HandoverEndOkCounter))

/-- A notification delivered to `HandoverEndOkCounter`. -/
def endOkNote : Notification :=
  ⟨Handler.HandoverEndOkCounter, "/NodeList/0/DeviceList/0/LteUeRrc/HandoverEndOk", 1, 2, 3, none⟩

/-! ## Handover algorithm selection (source lines 129-139) -/

/-- The attribute values the selection builds. -/
inductive AttributeValue where
  | UintegerValue (v : Nat)
  | DoubleValue (v : ℚ)
  | TimeValueMilliSeconds (ms : Nat)
deriving DecidableEq

/-- The two `LteHelper` calls the selection makes. -/
inductive LteHelperCall where
  | SetHandoverAlgorithmType (type : String)
  | SetHandoverAlgorithmAttribute (name : String) (value : AttributeValue)
deriving DecidableEq

/-- Source lines 130-139: the calls made on `lteHelper`, in program order.
`timeToTrigger` is a `uint16_t`, `servingCellThreshold` and `neighbourCellOffset` are
`uint8_t`, `hysteresis` is a `double`; each is passed on as it is. -/
def configureHandover (useA2A4 : Bool) (hysteresis : ℚ) (timeToTrigger : Nat)
    (servingCellThreshold neighbourCellOffset : Nat) : List LteHelperCall :=
  if useA2A4 then
    [LteHelperCall.SetHandoverAlgorithmType "ns3::A2A4RsrqHandoverAlgorithm",
     LteHelperCall.SetHandoverAlgorithmAttribute "ServingCellThreshold"
       (AttributeValue.UintegerValue servingCellThreshold),
     LteHelperCall.SetHandoverAlgorithmAttribute "NeighbourCellOffset"
       (AttributeValue.UintegerValue neighbourCellOffset)]
  else
    [LteHelperCall.SetHandoverAlgorithmType "ns3::A3RsrpHandoverAlgorithm",
     LteHelperCall.SetHandoverAlgorithmAttribute "Hysteresis"
       (AttributeValue.DoubleValue hysteresis),
     LteHelperCall.SetHandoverAlgorithmAttribute "TimeToTrigger"
       (AttributeValue.TimeValueMilliSeconds timeToTrigger)]

/-- The algorithm types named by the calls. -/
def policyTypes : List LteHelperCall → List String
  | [] => []
  | LteHelperCall.SetHandoverAlgorithmType t :: cs => t :: policyTypes cs
  | LteHelperCall.SetHandoverAlgorithmAttribute _ _ :: cs => policyTypes cs

/-- The attributes forwarded by the calls, in order. -/
def forwardedAttributes : List LteHelperCall → List (String × AttributeValue)
  | [] => []
  | LteHelperCall.SetHandoverAlgorithmType _ :: cs => forwardedAttributes cs
  | LteHelperCall.SetHandoverAlgorithmAttribute n v :: cs => (n, v) :: forwardedAttributes cs

/-! ## Cell grid (source lines 181-216 and 238-246) -/

/-- The `Vector` of ns-3: three coordinates. -/
structure Vector (K : Type) where
  x : K
  y : K
  z : K
deriving DecidableEq

/-- The positions added to `enbPositionAlloc` by source lines 190-212, in order. -/
def enbPositionAlloc : List (Vector ℚ) :=
  [⟨0, 0, 0⟩, ⟨0, 0, 0⟩, ⟨0, 0, 0⟩,
   ⟨500, 0, 0⟩, ⟨500, 0, 0⟩, ⟨500, 0, 0⟩,
   ⟨0, 500, 0⟩, ⟨0, 500, 0⟩, ⟨0, 500, 0⟩,
   ⟨500, 500, 0⟩, ⟨500, 500, 0⟩, ⟨500, 500, 0⟩,
   ⟨1000, 500, 0⟩, ⟨1000, 500, 0⟩, ⟨1000, 500, 0⟩,
   ⟨500, 1000, 0⟩, ⟨500, 1000, 0⟩, ⟨500, 1000, 0⟩,
   ⟨1000, 1000, 0⟩, ⟨1000, 1000, 0⟩, ⟨1000, 1000, 0⟩]

/-- The position `enbMobility.Install(enbNodes)` gives node `i` (source line 216): the
ns-3 list allocator hands out its positions in insertion order, one per node, and
starts again from the first position when the list is exhausted. -/
def enbPosition (i : Nat) : Vector ℚ :=
  enbPositionAlloc.getD (i % enbPositionAlloc.length) ⟨0, 0, 0⟩

/-- Source line 241: `DoubleValue((i % 3) * 120.0)` for the `uint32_t` index `i`. -/
def orientation (i : Nat) : ℚ := ((i % 3 : Nat) : ℚ) * 120

/-- The sectors built for `numberOfEnbs` nodes: `enbNodes.Create(numberOfEnbs)` (source
line 184), one position per node (line 216) and one orientation per node from the loop
`for (uint32_t i = 0; i < enbNodes.GetN(); i++)` (lines 240-244). -/
def cellGrid (numberOfEnbs : Nat) : List (Vector ℚ × ℚ) :=
  (List.range numberOfEnbs).map (fun i => (enbPosition i, orientation i))

/-- Source line 66: the default `numberOfEnbs = 21`. -/
def defaultNumberOfEnbs : Nat := 21

/-- The seven site anchors `(x, y)` in the order the specification lists them. -/
def siteAnchors : List (ℚ × ℚ) :=
  [(0, 0), (500, 0), (0, 500), (500, 500), (1000, 500), (500, 1000), (1000, 1000)]

/-- The anchor of site `s`. -/
def siteAnchor (s : Nat) : ℚ × ℚ := siteAnchors.getD s (0, 0)

/-! ## Terminal kinematics (source lines 218-232) -/

/-- The ns-3 call `rand->GetValue(min, max)` as a function of the underlying uniform
sample `r` of `[0, 1)`: it returns `min + r * (max - min)`. -/
def GetValue {K : Type} [Field K] (r min max : K) : K := min + r * (max - min)

/-- The four uniform samples one iteration of the seeding loop consumes: two for the
position, one for the speed, one for the heading. -/
structure Draws (K : Type) where
  rx : K
  ry : K
  rSpeed : K
  rTheta : K

/-- Every sample lies in `[0, 1)`. -/
def Draws.InUnit {K : Type} [Field K] [LT K] [LE K] (d : Draws K) : Prop :=
  (0 ≤ d.rx ∧ d.rx < 1) ∧ (0 ≤ d.ry ∧ d.ry < 1) ∧
  (0 ≤ d.rSpeed ∧ d.rSpeed < 1) ∧ (0 ≤ d.rTheta ∧ d.rTheta < 1)

/-- Source line 228: `double speedKmph = rand->GetValue(minSpeed, maxSpeed);`. -/
def speedKmph {K : Type} [Field K] (minSpeed maxSpeed : K) (d : Draws K) : K :=
  GetValue d.rSpeed minSpeed maxSpeed

/-- Source line 229: `double speedMps = speedKmph * 1000.0 / 3600.0;`. -/
def speedMps {K : Type} [Field K] (speedKmph : K) : K := speedKmph * 1000 / 3600

/-- Source line 230: `double theta = rand->GetValue(0.0, 2 * M_PI);`. -/
def theta {K : Type} [Field K] (pi : K) (d : Draws K) : K := GetValue d.rTheta 0 (2 * pi)

/-- What the seeding loop sets on one terminal. -/
structure UeSeed (K : Type) where
  position : Vector K
  velocity : Vector K

/-- The body of the loop of source lines 223-232. The cosine, the sine and the constant
`M_PI` are parameters, so that the definition can be evaluated over any field. -/
def seedUe {K : Type} [Field K] (cos sin : K → K) (pi : K) (minSpeed maxSpeed : K)
    (d : Draws K) : UeSeed K :=
  let v := speedMps (speedKmph minSpeed maxSpeed d)
  let t := theta pi d
  { position := ⟨GetValue d.rx 0 1000, GetValue d.ry 0 1000, 0⟩
    velocity := ⟨v * cos t, v * sin t, 0⟩ }

/-- The loop `for (uint32_t u = 0; u < ueNodes.GetN(); ++u)` of source line 223 over the
`numberOfUes` terminals; `draws u` are the samples consumed by iteration `u`. -/
def seedUes {K : Type} [Field K] (cos sin : K → K) (pi : K) (minSpeed maxSpeed : K)
    (numberOfUes : Nat) (draws : Nat → Draws K) : List (UeSeed K) :=
  (List.range numberOfUes).map (fun u => seedUe cos sin pi minSpeed maxSpeed (draws u))

/-- A configuration error raised before the run. -/
inductive ConfigError where
  | invalidSpeedRange
deriving DecidableEq

/-- The program from argument parsing (source lines 77-98) to the end of the seeding
loop (line 232), as far as the speed range is concerned: no statement in between reads
`minSpeed` or `maxSpeed`, so the loop is reached for every pair of values and the stage
has no rejecting branch. -/
def seedMobility {K : Type} [Field K] (cos sin : K → K) (pi : K) (minSpeed maxSpeed : K)
    (numberOfUes : Nat) (draws : Nat → Draws K) : Except ConfigError (List (UeSeed K)) :=
  Except.ok (seedUes cos sin pi minSpeed maxSpeed numberOfUes draws)

/-- All four samples equal to one half. -/
def halfDraws (K : Type) [Field K] : Draws K := ⟨1 / 2, 1 / 2, 1 / 2, 1 / 2⟩

/-! ## Sector creation and guarded divisions -/

/-- A rejection of the configured sector count. -/
inductive SectorCountError where
  | notThreeTimesSites
deriving DecidableEq

/-- The program from argument parsing (source lines 66-98) to the end of the eNB
installation loop (line 244), as far as `numberOfEnbs` is concerned: the value is passed
to `enbNodes.Create` (line 184) and bounds the loop through `enbNodes.GetN()` (line 240);
no statement compares it with 21 or with the length of the position list, so the stage
has no rejecting branch and builds one sector per created node. -/
def buildSectors (numberOfEnbs : Nat) : Except SectorCountError (List (Vector ℚ × ℚ)) :=
  Except.ok (cellGrid numberOfEnbs)

/-- A division as a guarded operation: it fails, reporting the division, when the
denominator is zero. -/
def guardedDiv (num den : ℚ) : Except Division ℚ :=
  if den = 0 then Except.error ⟨num, den⟩ else Except.ok (num / den)

/-- Source line 353 with the guarded division: the division is evaluated whatever the
duration is. -/
def totalThroughputMbpsGuarded (totalDlBytes : Nat) (simulationTimeSeconds : ℚ) :
    Except Division (ℚ × List Division) :=
  (guardedDiv ((totalDlBytes : ℚ) * 8) (simulationTimeSeconds * 1000000)).map
    (fun q => (q, [⟨(totalDlBytes : ℚ) * 8, simulationTimeSeconds * 1000000⟩]))

/-- Source lines 357-360 with the guarded division, evaluated only inside the test
`numberOfUes > 0 && simulationTimeSeconds > 0`. -/
def anohGuarded (g_handoverCount numberOfUes : Nat) (simulationTimeSeconds : ℚ) :
    Except Division (ℚ × List Division) :=
  if 0 < numberOfUes ∧ 0 < simulationTimeSeconds then
    (guardedDiv (g_handoverCount : ℚ) ((numberOfUes : ℚ) * simulationTimeSeconds)).map
      (fun q => (q, [⟨(g_handoverCount : ℚ), (numberOfUes : ℚ) * simulationTimeSeconds⟩]))
  else Except.ok (0, [])

/-- Source lines 362-367 with the guarded division, evaluated only inside the test
`anoh > 0.0`. -/
def optimizeRatioGuarded (throughputMbps anohValue : ℚ) :
    Except Division (Option ℚ × List Division) :=
  if 0 < anohValue then
    (guardedDiv throughputMbps anohValue).map
      (fun q => (some q, [⟨throughputMbps, anohValue⟩]))
  else Except.ok (none, [])

/-- Source lines 344-367 with every division guarded, in program order: throughput,
then ANOH, then the ratio. The first failing division ends the reduction. -/
def reduceMetricsGuarded (stats : List FlowRecord) (g_handoverCount numberOfUes : Nat)
    (simulationTimeSeconds : ℚ) : Except Division RunMetrics :=
  (totalThroughputMbpsGuarded (totalDlBytes numberOfUes stats) simulationTimeSeconds).bind
    fun thr =>
  (anohGuarded g_handoverCount numberOfUes simulationTimeSeconds).bind fun a =>
  (optimizeRatioGuarded thr.1 a.1).bind fun r =>
  Except.ok
    { totalDlBytes := totalDlBytes numberOfUes stats
      totalThroughputMbps := thr.1
      anoh := a.1
      optimizeRatio := r.1
      divisions := thr.2 ++ a.2 ++ r.2 }

/-! ## Lemmas on the byte accumulation -/

theorem isDlPort_eq_decide (numberOfUes p : Nat) :
    isDlPort numberOfUes p = decide (dlPort ≤ p ∧ p < dlPort + numberOfUes) := by
  simp [isDlPort, Bool.decide_and]

theorem foldl_addFlow (numberOfUes : Nat) (stats : List FlowRecord) :
    ∀ acc : Nat, acc < 2 ^ 64 →
      stats.foldl (addFlow numberOfUes) acc
        = (acc + (dlByteCounts numberOfUes stats).sum) % 2 ^ 64 := by
  induction stats with
  | nil =>
      intro acc hacc
      simp only [dlByteCounts, List.filter_nil, List.map_nil, List.sum_nil, List.foldl_nil,
        Nat.add_zero]
      exact (Nat.mod_eq_of_lt hacc).symm
  | cons f fs ih =>
      intro acc hacc
      have hcounts : ∀ l : List FlowRecord, dlByteCounts numberOfUes l
          = (l.filter (fun g => isDlPort numberOfUes g.destinationPort)).map
              FlowRecord.rxBytes := by
        intro l
        simp [dlByteCounts, isDlPort_eq_decide]
      rw [List.foldl_cons]
      by_cases hf : isDlPort numberOfUes f.destinationPort = true
      · have hstep : addFlow numberOfUes acc f = (acc + f.rxBytes) % 2 ^ 64 := by
          simp [addFlow, hf]
        have hlt : addFlow numberOfUes acc f < 2 ^ 64 := by
          rw [hstep]; exact Nat.mod_lt _ (by norm_num)
        have hcons : dlByteCounts numberOfUes (f :: fs)
            = f.rxBytes :: dlByteCounts numberOfUes fs := by
          rw [hcounts, hcounts, List.filter_cons]
          simp only [hf, if_true, List.map_cons]
        rw [ih _ hlt, hstep, hcons, List.sum_cons]
        omega
      · have hstep : addFlow numberOfUes acc f = acc := by
          simp [addFlow, hf]
        have hcons : dlByteCounts numberOfUes (f :: fs) = dlByteCounts numberOfUes fs := by
          rw [hcounts, hcounts, List.filter_cons]
          simp only [hf, if_false, Bool.false_eq_true]
        rw [hstep, ih _ hacc, hcons]

theorem totalDlBytes_eq (numberOfUes : Nat) (stats : List FlowRecord) :
    totalDlBytes numberOfUes stats = (dlByteCounts numberOfUes stats).sum % 2 ^ 64 := by
  unfold totalDlBytes
  rw [foldl_addFlow numberOfUes stats 0 (by norm_num), Nat.zero_add]

/-! ## C1: downlink byte total and throughput -/

/-- C1 (as stated, refuted): with two terminals and two downlink flows of `2 ^ 63`
received bytes each, on ports `10000` and `10001`, the `uint64_t` accumulator ends at
`0`, while the sum of the byte counts of the accepted flows is `2 ^ 64`. -/
theorem totalDlBytes_wraps :
    dlByteCounts 2 [⟨10000, 2 ^ 63⟩, ⟨10001, 2 ^ 63⟩] = [2 ^ 63, 2 ^ 63] ∧
    (reduceMetrics [⟨10000, 2 ^ 63⟩, ⟨10001, 2 ^ 63⟩] 0 2 1).totalDlBytes = 0 ∧
    (reduceMetrics [⟨10000, 2 ^ 63⟩, ⟨10001, 2 ^ 63⟩] 0 2 1).totalDlBytes
      ≠ (dlByteCounts 2 [⟨10000, 2 ^ 63⟩, ⟨10001, 2 ^ 63⟩]).sum := by
  refine ⟨by decide, ?_, ?_⟩
  · show totalDlBytes 2 _ = 0
    rw [totalDlBytes_eq]; decide
  · show totalDlBytes 2 _ ≠ _
    rw [totalDlBytes_eq]; decide

/-- C1 (amended): for every list of flow records, terminal count `N` and duration `d`,
`totalDlBytes` is the sum of `rxBytes` over exactly the records whose destination port
`p` satisfies `dlPort <= p < dlPort + N`, reduced modulo `2 ^ 64`; it is that sum itself
whenever the sum is below `2 ^ 64`; and for `d > 0` the reported throughput is
`totalDlBytes * 8 / (d * 10 ^ 6)` as an exact rational. -/
theorem totalDlBytes_throughput (stats : List FlowRecord) (g_handoverCount N : Nat)
    (d : ℚ) (hd : 0 < d) :
    (reduceMetrics stats g_handoverCount N d).totalDlBytes
        = (dlByteCounts N stats).sum % 2 ^ 64 ∧
    ((dlByteCounts N stats).sum < 2 ^ 64 →
      (reduceMetrics stats g_handoverCount N d).totalDlBytes = (dlByteCounts N stats).sum) ∧
    d * 10 ^ 6 ≠ 0 ∧
    (reduceMetrics stats g_handoverCount N d).totalThroughputMbps
        = ((reduceMetrics stats g_handoverCount N d).totalDlBytes : ℚ) * 8 / (d * 10 ^ 6) := by
  have h : (reduceMetrics stats g_handoverCount N d).totalDlBytes
      = (dlByteCounts N stats).sum % 2 ^ 64 := totalDlBytes_eq N stats
  refine ⟨h, ?_, ?_, ?_⟩
  · intro hlt
    rw [h, Nat.mod_eq_of_lt hlt]
  · positivity
  · simp only [reduceMetrics, totalThroughputMbps]
    norm_num

/-- C1 witness: `N = 2`, `d = 10` and the records `(10000, 125000)`, `(10001, 125000)`,
`(20000, 999)` give `totalDlBytes = 250000` and throughput `1 / 5`. -/
theorem totalDlBytes_throughput_literal :
    (reduceMetrics literalStats 4 2 10).totalDlBytes = 250000 ∧
    (reduceMetrics literalStats 4 2 10).totalThroughputMbps = 1 / 5 := by
  have h := totalDlBytes_throughput literalStats 4 2 10 (by norm_num)
  have hsum : (dlByteCounts 2 literalStats).sum = 250000 := by decide
  have htot : (reduceMetrics literalStats 4 2 10).totalDlBytes = 250000 := by
    rw [h.1, hsum]; decide
  refine ⟨htot, ?_⟩
  rw [h.2.2.2, htot]
  norm_num

/-! ## C2: average number of handovers -/

/-- C2: for every handover count `c`, terminal count `N` and duration `d`, `anoh` is
`c / (N * d)` when `N > 0` and `d > 0` (the denominator being nonzero), and it is `0`
when `N = 0` or `d <= 0`; in the latter case the ANOH step evaluates no division, so
the only division of the run so far is the one of the throughput. -/
theorem anoh_value (stats : List FlowRecord) (c N : Nat) (d : ℚ) :
    (0 < N → 0 < d →
      (reduceMetrics stats c N d).anoh = (c : ℚ) / ((N : ℚ) * d) ∧ (N : ℚ) * d ≠ 0) ∧
    (N = 0 ∨ d ≤ 0 →
      (reduceMetrics stats c N d).anoh = 0 ∧ anoh c N d = (0, []) ∧
      (reduceMetrics stats c N d).divisions
        = (totalThroughputMbps (totalDlBytes N stats) d).2) := by
  constructor
  · intro hN hd
    have hNq : (0 : ℚ) < (N : ℚ) := by exact_mod_cast hN
    refine ⟨?_, (mul_pos hNq hd).ne.symm⟩
    simp [reduceMetrics, anoh, hN, hd]
  · intro h
    have hguard : ¬ (0 < N ∧ 0 < d) := by
      rintro ⟨hN, hd⟩
      rcases h with h | h
      · omega
      · exact absurd hd (not_lt.mpr h)
    have ha : anoh c N d = (0, []) := by simp [anoh, hguard]
    refine ⟨?_, ha, ?_⟩
    · simp [reduceMetrics, ha]
    · simp [reduceMetrics, ha, optimizeRatio]

/-- C2 witness: `c = 4`, `N = 2`, `d = 10` gives `anoh = 1 / 5`; with `N = 0` the value
is `0` and no division is evaluated by the ANOH step. -/
theorem anoh_value_literal :
    (reduceMetrics literalStats 4 2 10).anoh = 1 / 5 ∧
    (reduceMetrics literalStats 4 0 10).anoh = 0 ∧ anoh 4 0 10 = (0, []) := by
  have h := anoh_value literalStats 4 2 10
  have h0 := anoh_value literalStats 4 0 10
  refine ⟨?_, (h0.2 (Or.inl rfl)).1, (h0.2 (Or.inl rfl)).2.1⟩
  rw [(h.1 (by norm_num) (by norm_num)).1]
  norm_num

/-! ## C3: optimization ratio -/

/-- C3: for every input the ratio is `some (throughput / anoh)` when `anoh > 0` and
`none` otherwise, and in the second case the ratio step evaluates no division; with
`N > 0` and `d > 0` the ratio is `none` exactly when the handover count is `0`, and then
the run evaluates the throughput and ANOH divisions only, none of them by `anoh`. -/
theorem optimizeRatio_value (stats : List FlowRecord) (c N : Nat) (d : ℚ) :
    (0 < (reduceMetrics stats c N d).anoh →
      (reduceMetrics stats c N d).optimizeRatio
        = some ((reduceMetrics stats c N d).totalThroughputMbps
            / (reduceMetrics stats c N d).anoh)) ∧
    (¬ 0 < (reduceMetrics stats c N d).anoh →
      (reduceMetrics stats c N d).optimizeRatio = none ∧
      optimizeRatio (reduceMetrics stats c N d).totalThroughputMbps
        (reduceMetrics stats c N d).anoh = (none, [])) ∧
    (0 < N → 0 < d →
      ((reduceMetrics stats c N d).optimizeRatio = none ↔ c = 0) ∧
      (c = 0 →
        (reduceMetrics stats c N d).anoh = 0 ∧
        (reduceMetrics stats c N d).divisions
          = [⟨(totalDlBytes N stats : ℚ) * 8, d * 1000000⟩, ⟨(c : ℚ), (N : ℚ) * d⟩])) := by
  refine ⟨?_, ?_, ?_⟩
  · intro h
    have h2 : 0 < (anoh c N d).1 := h
    simp [reduceMetrics, optimizeRatio, h2]
  · intro h
    have h2 : ¬ 0 < (anoh c N d).1 := h
    constructor
    · simp [reduceMetrics, optimizeRatio, h2]
    · show optimizeRatio _ (anoh c N d).1 = (none, [])
      simp [optimizeRatio, h2]
  · intro hN hd
    have hNq : (0 : ℚ) < (N : ℚ) := by exact_mod_cast hN
    have hden : 0 < (N : ℚ) * d := mul_pos hNq hd
    have ha : anoh c N d = ((c : ℚ) / ((N : ℚ) * d), [⟨(c : ℚ), (N : ℚ) * d⟩]) := by
      simp [anoh, hN, hd]
    constructor
    · constructor
      · intro hnone
        by_contra hc
        have hcq : (0 : ℚ) < (c : ℚ) := by exact_mod_cast Nat.pos_of_ne_zero hc
        have hpos : 0 < (c : ℚ) / ((N : ℚ) * d) := div_pos hcq hden
        simp [reduceMetrics, optimizeRatio, ha, hpos] at hnone
      · intro hc
        subst hc
        simp [reduceMetrics, optimizeRatio, ha]
    · intro hc
      subst hc
      simp [reduceMetrics, optimizeRatio, ha, totalThroughputMbps]

/-- C3 witness: the literal scenario gives ratio `1`; the same scenario with no
completed handover gives `anoh = 0` and no ratio. -/
theorem optimizeRatio_value_literal :
    (reduceMetrics literalStats 4 2 10).optimizeRatio = some 1 ∧
    (reduceMetrics literalStats 0 2 10).anoh = 0 ∧
    (reduceMetrics literalStats 0 2 10).optimizeRatio = none := by
  have h4 := optimizeRatio_value literalStats 4 2 10
  have h0 := optimizeRatio_value literalStats 0 2 10
  have hthr : (reduceMetrics literalStats 4 2 10).totalThroughputMbps = 1 / 5 := by
    have ht : totalDlBytes 2 literalStats = 250000 := by decide
    simp only [reduceMetrics, totalThroughputMbps, ht]
    norm_num
  have hanoh : (reduceMetrics literalStats 4 2 10).anoh = 1 / 5 := by
    simp only [reduceMetrics, anoh]
    norm_num
  refine ⟨?_, ((h0.2.2 (by norm_num) (by norm_num)).2 rfl).1,
    ((h0.2.2 (by norm_num) (by norm_num)).1).2 rfl⟩
  rw [h4.1 (by rw [hanoh]; norm_num), hthr, hanoh]
  norm_num

/-! ## Lemmas on the installed ports -/

theorem dlPortOf_eq (u : Nat) : dlPortOf u = (10000 + u) % 65536 := by
  simp only [dlPortOf, dlPort]
  norm_num

theorem ulPortOf_eq (u : Nat) : ulPortOf u = (20000 + u) % 65536 := by
  simp only [ulPortOf, ulPort]
  norm_num

theorem mem_installTraffic (N : Nat) (disableDl disableUl : Bool) (fl : InstalledFlow)
    (h : fl ∈ installTraffic N disableDl disableUl) :
    ∃ u, u < N ∧ (fl = ⟨u, Direction.downlink, dlPortOf u⟩ ∨
      fl = ⟨u, Direction.uplink, ulPortOf u⟩) := by
  simp only [installTraffic, List.mem_flatten, List.mem_map, List.mem_range] at h
  obtain ⟨l, ⟨u, hu, rfl⟩, hfl⟩ := h
  refine ⟨u, hu, ?_⟩
  simp only [installUeTraffic, List.mem_append] at hfl
  rcases hfl with hfl | hfl
  · left
    cases disableDl <;> simp at hfl
    exact hfl
  · right
    cases disableUl <;> simp at hfl
    exact hfl

/-! ## C4: port assignment -/

/-- C4 (as stated, refuted): with `N = 10001` terminals, the downlink port of terminal
`10000` is the uplink port of terminal `0`, namely `20000`. -/
theorem dl_ul_port_clash :
    (10000 < 10001 ∧ 0 < 10001 ∧ 10001 < 2 ^ 16) ∧
    dlPortOf 10000 = 20000 ∧ ulPortOf 0 = 20000 ∧
    ¬ (∀ u v : Nat, u < 10001 → v < 10001 → dlPortOf u ≠ ulPortOf v) := by
  refine ⟨by decide, by decide, by decide, ?_⟩
  intro h
  exact h 10000 0 (by decide) (by decide) (by decide)

/-- C4 (amended): for every terminal count `N` that fits 16 bits, terminal `u < N` is
given the downlink port `(dlPort + u) mod 2 ^ 16` and the uplink port
`(ulPort + u) mod 2 ^ 16`; (i) distinct terminals below `N` have distinct downlink
ports, (ii) distinct terminals below `N` have distinct uplink ports, and (iii) no
downlink port of a terminal below `N` equals an uplink port of a terminal below `N`
exactly when `N <= 10000`. -/
theorem port_assignment (N : Nat) (hN : N < 2 ^ 16) :
    (∀ u, u < N →
      installUeTraffic false false u
        = [⟨u, Direction.downlink, dlPortOf u⟩, ⟨u, Direction.uplink, ulPortOf u⟩] ∧
      dlPortOf u = (dlPort + u) % 2 ^ 16 ∧ ulPortOf u = (ulPort + u) % 2 ^ 16) ∧
    (∀ u v, u < N → v < N → u ≠ v → dlPortOf u ≠ dlPortOf v) ∧
    (∀ u v, u < N → v < N → u ≠ v → ulPortOf u ≠ ulPortOf v) ∧
    ((∀ u v, u < N → v < N → dlPortOf u ≠ ulPortOf v) ↔ N ≤ 10000) := by
  have hN2 : N < 65536 := by norm_num at hN; exact hN
  refine ⟨?_, ?_, ?_, ?_⟩
  · intro u hu
    refine ⟨by simp [installUeTraffic], ?_, ?_⟩
    · rw [dlPortOf_eq u]; simp [dlPort]
    · rw [ulPortOf_eq u]; simp [ulPort]
  · intro u v hu hv huv
    rw [dlPortOf_eq u, dlPortOf_eq v]
    omega
  · intro u v hu hv huv
    rw [ulPortOf_eq u, ulPortOf_eq v]
    omega
  · constructor
    · intro h
      by_contra hcon
      have h1 : 10000 < N := by omega
      exact h 10000 0 h1 (by omega) (by decide)
    · intro hle u v hu hv
      rw [dlPortOf_eq u, ulPortOf_eq v]
      omega

/-- C4 witness: the default terminal count `N = 41`. -/
theorem port_assignment_default :
    (∀ u v, u < 41 → v < 41 → u ≠ v → dlPortOf u ≠ dlPortOf v) ∧
    (∀ u v, u < 41 → v < 41 → u ≠ v → ulPortOf u ≠ ulPortOf v) ∧
    (∀ u v, u < 41 → v < 41 → dlPortOf u ≠ ulPortOf v) := by
  have h := port_assignment 41 (by decide)
  exact ⟨h.2.1, h.2.2.1, h.2.2.2.mpr (by decide)⟩

/-! ## C5: the port filter on installed flows -/

/-- C5 (as stated, refuted): with `N = 10001` terminals the port filter accepts the
port `20000` on which the uplink flow of terminal `0` was installed; with `N = 55537`
it rejects the port `0` on which the downlink flow of terminal `55536` was installed. -/
theorem filter_misclassifies :
    (0 < 10001 ∧ ulPortOf 0 = 20000 ∧ isDlPort 10001 (ulPortOf 0) = true) ∧
    (55536 < 55537 ∧ dlPortOf 55536 = 0 ∧ isDlPort 55537 (dlPortOf 55536) = false) := by
  decide

/-- C5 (amended): for every terminal count `N <= 10000` and every terminal `u < N`, the
port filter of the reduction accepts the port on which the downlink flow of `u` was
installed and rejects the port on which its uplink flow was installed; hence, for any
assignment of byte counts to the installed flows, the byte counts that enter
`totalDlBytes` are exactly those of the downlink flows. -/
theorem filter_identifies_direction (N : Nat) (hN : N ≤ 10000) :
    (∀ u, u < N → isDlPort N (dlPortOf u) = true ∧ isDlPort N (ulPortOf u) = false) ∧
    (∀ (disableDl disableUl : Bool) (fl : InstalledFlow),
      fl ∈ installTraffic N disableDl disableUl →
        (isDlPort N fl.destinationPort = true ↔ fl.direction = Direction.downlink)) ∧
    (∀ (disableDl disableUl : Bool) (bytes : InstalledFlow → Nat),
      dlByteCounts N ((installTraffic N disableDl disableUl).map
          (fun fl => ⟨fl.destinationPort, bytes fl⟩))
        = ((installTraffic N disableDl disableUl).filter
            (fun fl => decide (fl.direction = Direction.downlink))).map bytes) := by
  have hports : ∀ u, u < N →
      isDlPort N (dlPortOf u) = true ∧ isDlPort N (ulPortOf u) = false := by
    intro u hu
    rw [dlPortOf_eq u, ulPortOf_eq u]
    simp only [isDlPort, dlPort]
    constructor
    · simp only [Bool.and_eq_true, decide_eq_true_eq]
      omega
    · simp only [Bool.and_eq_false_iff, decide_eq_false_iff_not]
      omega
  have hflows : ∀ (disableDl disableUl : Bool) (fl : InstalledFlow),
      fl ∈ installTraffic N disableDl disableUl →
        (isDlPort N fl.destinationPort = true ↔ fl.direction = Direction.downlink) := by
    intro a b fl hfl
    obtain ⟨u, hu, rfl | rfl⟩ := mem_installTraffic N a b fl hfl
    · simp [(hports u hu).1]
    · simp [(hports u hu).2]
  refine ⟨hports, hflows, ?_⟩
  intro a b bytes
  simp only [dlByteCounts, List.filter_map, List.map_map]
  have hfilter : (installTraffic N a b).filter
        ((fun f : FlowRecord => decide (dlPort ≤ f.destinationPort ∧
          f.destinationPort < dlPort + N)) ∘ fun fl => ⟨fl.destinationPort, bytes fl⟩)
      = (installTraffic N a b).filter
          (fun fl => decide (fl.direction = Direction.downlink)) := by
    apply List.filter_congr
    intro fl hfl
    have h := hflows a b fl hfl
    rw [isDlPort_eq_decide] at h
    simp only [Function.comp]
    by_cases hd : fl.direction = Direction.downlink
    · simp only [hd, decide_True]
      exact h.mpr hd
    · have hnot : ¬ (decide (dlPort ≤ fl.destinationPort ∧
          fl.destinationPort < dlPort + N) = true) := fun hc => hd (h.mp hc)
      simp only [hd, decide_False]
      exact Bool.eq_false_iff.mpr hnot
  rw [hfilter]
  rfl

/-- C5 witness: the default terminal count `N = 41`, terminal `40`. -/
theorem filter_identifies_direction_default :
    isDlPort 41 (dlPortOf 40) = true ∧ isDlPort 41 (ulPortOf 40) = false :=
  (filter_identifies_direction 41 (by decide)).1 40 (by decide)

/-! ## Lemmas on the handover counter -/

theorem deliver_counter (s : CallbackState) (n : Notification) :
    (deliver s n).g_handoverCount
      = if n.handler = Handler.HandoverEndOkCounter then (s.g_handoverCount + 1) % 2 ^ 32
        else s.g_handoverCount := by
  unfold deliver
  cases h : n.handler <;> simp

theorem run_append_singleton (ns : List Notification) (n : Notification) :
    run (ns ++ [n]) = deliver (run ns) n := by
  simp [run, List.foldl_append]

theorem endOkCount_append_singleton (ns : List Notification) (n : Notification) :
    endOkCount (ns ++ [n])
      = endOkCount ns + if n.handler = Handler.HandoverEndOkCounter then 1 else 0 := by
  unfold endOkCount
  rw [List.countP_append, List.countP_cons, List.countP_nil]
  by_cases h : n.handler = Handler.HandoverEndOkCounter <;> simp [h]

theorem run_counter (ns : List Notification) :
    (run ns).g_handoverCount = endOkCount ns % 2 ^ 32 := by
  induction ns using List.reverseRecOn with
  | nil => rfl
  | append_singleton ns n ih =>
      rw [run_append_singleton, deliver_counter, ih, endOkCount_append_singleton]
      by_cases h : n.handler = Handler.HandoverEndOkCounter
      · simp only [h, if_true]
        omega
      · simp only [h, if_false, Nat.add_zero]

theorem endOkCount_le_append (pre post : List Notification) :
    endOkCount pre ≤ endOkCount (pre ++ post) := by
  unfold endOkCount
  rw [List.countP_append]
  exact Nat.le_add_right _ _

theorem endOkCount_replicate (k : Nat) :
    endOkCount (List.replicate k endOkNote) = k := by
  induction k with
  | zero => rfl
  | succ k ih =>
      rw [List.replicate_succ]
      unfold endOkCount at ih ⊢
      rw [List.countP_cons, ih]
      simp [endOkNote]

/-! ## C6: the completed-handover counter -/

/-- C6 (as stated, refuted): the counter value `2 ^ 32 - 1` is reached after that many
deliveries to `HandoverEndOkCounter`, and one more delivery takes the counter to `0`:
it is not `1` greater, it decreases, and after `2 ^ 32` deliveries it is not the number
of deliveries. -/
theorem counter_wraps :
    (run (List.replicate 4294967295 endOkNote)).g_handoverCount = 4294967295 ∧
    (deliver (run (List.replicate 4294967295 endOkNote)) endOkNote).g_handoverCount = 0 ∧
    endOkCount (List.replicate 4294967296 endOkNote) = 4294967296 ∧
    (run (List.replicate 4294967296 endOkNote)).g_handoverCount = 0 := by
  refine ⟨?_, ?_, endOkCount_replicate _, ?_⟩
  · rw [run_counter, endOkCount_replicate]
    decide
  · rw [deliver_counter, run_counter, endOkCount_replicate]
    decide
  · rw [run_counter, endOkCount_replicate]
    decide

/-- C6 (amended): the counter starts at `0`; a delivery to `HandoverEndOkCounter` takes
the counter `c` to `(c + 1) mod 2 ^ 32`, which is `c + 1` as long as `c < 2 ^ 32 - 1`,
and a delivery to any other registered handler leaves it unchanged; consequently along
every finite sequence of notifications with fewer than `2 ^ 32` deliveries to
`HandoverEndOkCounter` the counter never decreases from a prefix to a longer prefix and
equals the number of deliveries to `HandoverEndOkCounter`. -/
theorem counter_counts (ns : List Notification) (hns : endOkCount ns < 2 ^ 32) :
    initialState.g_handoverCount = 0 ∧
    (∀ h : Handler, registered h = true) ∧
    (∀ (s : CallbackState) (n : Notification), registered n.handler = true →
      (n.handler = Handler.HandoverEndOkCounter →
        (deliver s n).g_handoverCount = (s.g_handoverCount + 1) % 2 ^ 32 ∧
        (s.g_handoverCount < 2 ^ 32 - 1 →
          (deliver s n).g_handoverCount = s.g_handoverCount + 1)) ∧
      (n.handler ≠ Handler.HandoverEndOkCounter →
        (deliver s n).g_handoverCount = s.g_handoverCount)) ∧
    (run ns).g_handoverCount = endOkCount ns ∧
    (∀ pre post : List Notification, ns = pre ++ post →
      (run pre).g_handoverCount = endOkCount pre ∧
      (run pre).g_handoverCount ≤ (run ns).g_handoverCount) := by
  have hfinal : (run ns).g_handoverCount = endOkCount ns := by
    rw [run_counter, Nat.mod_eq_of_lt hns]
  refine ⟨rfl, ?_, ?_, hfinal, ?_⟩
  · intro h
    cases h <;> decide
  · intro s n _
    constructor
    · intro h
      rw [deliver_counter]
      simp only [h, if_true]
      refine ⟨trivial, ?_⟩
      intro hlt
      apply Nat.mod_eq_of_lt
      omega
    · intro h
      rw [deliver_counter]
      simp only [h, if_false]
  · intro pre post hsplit
    have hle : endOkCount pre ≤ endOkCount ns := by
      rw [hsplit]; exact endOkCount_le_append pre post
    have hpre : (run pre).g_handoverCount = endOkCount pre := by
      rw [run_counter, Nat.mod_eq_of_lt (lt_of_le_of_lt hle hns)]
    exact ⟨hpre, by rw [hpre, hfinal]; exact hle⟩

/-- C6 witness: three notifications, two of them delivered to `HandoverEndOkCounter`. -/
theorem counter_counts_example :
    (run [endOkNote, ⟨Handler.NotifyHandoverFailure, "ctx", 1, 2, 3, none⟩,
      endOkNote]).g_handoverCount = 2 := by
  have h := counter_counts
    [endOkNote, ⟨Handler.NotifyHandoverFailure, "ctx", 1, 2, 3, none⟩, endOkNote]
    (by decide)
  rw [h.2.2.2.1]
  decide

/-! ## C7: handover policy selection -/

/-- C7: for every input exactly one algorithm type is set. With `useA2A4 = false` it is
the A3-RSRP algorithm with exactly the attributes `Hysteresis = hysteresis` and
`TimeToTrigger = timeToTrigger` milliseconds, whatever `servingCellThreshold` and
`neighbourCellOffset` are; with `useA2A4 = true` it is the A2-A4-RSRQ algorithm with
exactly the attributes `ServingCellThreshold = servingCellThreshold` and
`NeighbourCellOffset = neighbourCellOffset`, whatever `hysteresis` and `timeToTrigger`
are. The values are passed on as they are. -/
theorem policy_exclusive (useA2A4 : Bool) (hysteresis : ℚ)
    (timeToTrigger servingCellThreshold neighbourCellOffset : Nat) :
    (policyTypes (configureHandover useA2A4 hysteresis timeToTrigger servingCellThreshold
        neighbourCellOffset)).length = 1 ∧
    (policyTypes (configureHandover false hysteresis timeToTrigger servingCellThreshold
        neighbourCellOffset) = ["ns3::A3RsrpHandoverAlgorithm"] ∧
      forwardedAttributes (configureHandover false hysteresis timeToTrigger
        servingCellThreshold neighbourCellOffset)
        = [("Hysteresis", AttributeValue.DoubleValue hysteresis),
           ("TimeToTrigger", AttributeValue.TimeValueMilliSeconds timeToTrigger)] ∧
      ∀ sct nco : Nat,
        configureHandover false hysteresis timeToTrigger sct nco
          = configureHandover false hysteresis timeToTrigger servingCellThreshold
              neighbourCellOffset) ∧
    (policyTypes (configureHandover true hysteresis timeToTrigger servingCellThreshold
        neighbourCellOffset) = ["ns3::A2A4RsrqHandoverAlgorithm"] ∧
      forwardedAttributes (configureHandover true hysteresis timeToTrigger
        servingCellThreshold neighbourCellOffset)
        = [("ServingCellThreshold", AttributeValue.UintegerValue servingCellThreshold),
           ("NeighbourCellOffset", AttributeValue.UintegerValue neighbourCellOffset)] ∧
      ∀ (hys : ℚ) (ttt : Nat),
        configureHandover true hys ttt servingCellThreshold neighbourCellOffset
          = configureHandover true hysteresis timeToTrigger servingCellThreshold
              neighbourCellOffset) := by
  refine ⟨?_, ⟨rfl, rfl, fun _ _ => rfl⟩, ⟨rfl, rfl, fun _ _ => rfl⟩⟩
  cases useA2A4 <;> rfl

/-! ## Lemmas on the cell grid -/

theorem cellGrid_getElem? (n i : Nat) (h : i < n) :
    (cellGrid n)[i]? = some (enbPosition i, orientation i) := by
  simp [cellGrid, List.getElem?_map, List.getElem?_range h]

theorem enbPosition_site (i : Nat) (h : i < 21) :
    enbPosition i = ⟨(siteAnchor (i / 3)).1, (siteAnchor (i / 3)).2, 0⟩ := by
  interval_cases i <;> rfl

/-! ## C8: cell grid layout -/

/-- C8: for the 21-sector topology the builder, a function of the sector count alone,
yields 21 (position, orientation) pairs; sector `i` sits at the anchor of site
`floor(i / 3)` with `z = 0` and has orientation `(i mod 3) * 120`; the seven anchors are
pairwise distinct, in rows of 2, 3 and 2 at `y = 0, 500, 1000`; the three sectors of
every site share their position and carry the orientations 0, 120, 240 in that order. -/
theorem cellGrid_layout :
    defaultNumberOfEnbs = 21 ∧
    (cellGrid 21).length = 21 ∧
    (∀ i, i < 21 →
      (cellGrid 21)[i]?
        = some (⟨(siteAnchor (i / 3)).1, (siteAnchor (i / 3)).2, 0⟩,
            ((i % 3 : Nat) : ℚ) * 120)) ∧
    siteAnchors = [(0, 0), (500, 0), (0, 500), (500, 500), (1000, 500), (500, 1000),
      (1000, 1000)] ∧
    siteAnchors.Nodup ∧
    siteAnchors.map Prod.snd = [0, 0, 500, 500, 500, 1000, 1000] ∧
    (∀ s, s < 7 →
      (cellGrid 21)[3 * s]? = some (⟨(siteAnchor s).1, (siteAnchor s).2, 0⟩, 0) ∧
      (cellGrid 21)[3 * s + 1]? = some (⟨(siteAnchor s).1, (siteAnchor s).2, 0⟩, 120) ∧
      (cellGrid 21)[3 * s + 2]? = some (⟨(siteAnchor s).1, (siteAnchor s).2, 0⟩, 240)) := by
  have hsector : ∀ i, i < 21 →
      (cellGrid 21)[i]?
        = some (⟨(siteAnchor (i / 3)).1, (siteAnchor (i / 3)).2, 0⟩,
            ((i % 3 : Nat) : ℚ) * 120) := by
    intro i hi
    rw [cellGrid_getElem? 21 i hi, enbPosition_site i hi]
    rfl
  refine ⟨rfl, by simp [cellGrid], hsector, rfl, ?_, rfl, ?_⟩
  · simp only [siteAnchors, List.nodup_cons, List.mem_cons, Prod.mk.injEq, List.mem_singleton,
      List.not_mem_nil, List.nodup_nil]
    norm_num
  · intro s hs
    have h0 : 3 * s < 21 := by omega
    have h1 : 3 * s + 1 < 21 := by omega
    have h2 : 3 * s + 2 < 21 := by omega
    have d0 : (3 * s) / 3 = s := by omega
    have d1 : (3 * s + 1) / 3 = s := by omega
    have d2 : (3 * s + 2) / 3 = s := by omega
    have m0 : (3 * s) % 3 = 0 := by omega
    have m1 : (3 * s + 1) % 3 = 1 := by omega
    have m2 : (3 * s + 2) % 3 = 2 := by omega
    rw [hsector _ h0, hsector _ h1, hsector _ h2, d0, d1, d2, m0, m1, m2]
    norm_num

/-! ## Lemmas on the uniform draw -/

theorem GetValue_mem_of_le {a b r : ℝ} (hab : a ≤ b) (h0 : 0 ≤ r) (h1 : r < 1) :
    a ≤ GetValue r a b ∧ GetValue r a b ≤ b := by
  unfold GetValue
  have hba : 0 ≤ b - a := sub_nonneg.mpr hab
  constructor
  · nlinarith [mul_nonneg h0 hba]
  · nlinarith [mul_le_mul_of_nonneg_right h1.le hba]

theorem GetValue_mem_of_gt {a b r : ℝ} (hab : b < a) (h0 : 0 ≤ r) (h1 : r < 1) :
    b < GetValue r a b ∧ GetValue r a b ≤ a := by
  unfold GetValue
  have hba : 0 < a - b := sub_pos.mpr hab
  constructor
  · nlinarith [mul_lt_mul_of_pos_right h1 hba]
  · nlinarith [mul_nonneg h0 hba.le]

theorem seedUes_getElem? {K : Type} [Field K] (cos sin : K → K) (pi minSpeed maxSpeed : K)
    (n : Nat) (draws : Nat → Draws K) (u : Nat) (hu : u < n) :
    (seedUes cos sin pi minSpeed maxSpeed n draws)[u]?
      = some (seedUe cos sin pi minSpeed maxSpeed (draws u)) := by
  simp [seedUes, List.getElem?_map, List.getElem?_range hu]

/-! ## C9: kinematics bounds -/

/-- C9: over the reals, with every uniform sample in `[0, 1)` and under
`0 <= minSpeed <= maxSpeed`, every generated terminal has `x` and `y` in `[0, 1000]` and
`z = 0`, and its velocity is `(speedMps * cos theta, speedMps * sin theta, 0)` with
`speedMps = speedKmph * 1000 / 3600`, whose Euclidean magnitude is `speedMps` and lies
in `[minSpeed * 1000 / 3600, maxSpeed * 1000 / 3600]`. -/
theorem kinematics_bounds (minSpeed maxSpeed : ℝ) (hmin : 0 ≤ minSpeed)
    (hle : minSpeed ≤ maxSpeed) (numberOfUes : Nat) (draws : Nat → Draws ℝ)
    (hdraws : ∀ u, (draws u).InUnit) :
    (seedUes Real.cos Real.sin Real.pi minSpeed maxSpeed numberOfUes draws).length
      = numberOfUes ∧
    ∀ u, u < numberOfUes →
      ∃ s : UeSeed ℝ,
        (seedUes Real.cos Real.sin Real.pi minSpeed maxSpeed numberOfUes draws)[u]? = some s ∧
        (0 ≤ s.position.x ∧ s.position.x ≤ 1000) ∧
        (0 ≤ s.position.y ∧ s.position.y ≤ 1000) ∧
        s.position.z = 0 ∧
        s.velocity
          = ⟨speedMps (speedKmph minSpeed maxSpeed (draws u))
                * Real.cos (theta Real.pi (draws u)),
             speedMps (speedKmph minSpeed maxSpeed (draws u))
                * Real.sin (theta Real.pi (draws u)), 0⟩ ∧
        speedMps (speedKmph minSpeed maxSpeed (draws u))
          = speedKmph minSpeed maxSpeed (draws u) * 1000 / 3600 ∧
        Real.sqrt (s.velocity.x ^ 2 + s.velocity.y ^ 2 + s.velocity.z ^ 2)
          = speedMps (speedKmph minSpeed maxSpeed (draws u)) ∧
        minSpeed * 1000 / 3600 ≤ speedMps (speedKmph minSpeed maxSpeed (draws u)) ∧
        speedMps (speedKmph minSpeed maxSpeed (draws u)) ≤ maxSpeed * 1000 / 3600 := by
  refine ⟨by simp [seedUes], ?_⟩
  intro u hu
  obtain ⟨⟨hx0, hx1⟩, ⟨hy0, hy1⟩, ⟨hs0, hs1⟩, _⟩ := hdraws u
  have hx := GetValue_mem_of_le (show (0 : ℝ) ≤ 1000 by norm_num) hx0 hx1
  have hy := GetValue_mem_of_le (show (0 : ℝ) ≤ 1000 by norm_num) hy0 hy1
  have hk := GetValue_mem_of_le hle hs0 hs1
  have hk1 : minSpeed ≤ speedKmph minSpeed maxSpeed (draws u) := hk.1
  have hk2 : speedKmph minSpeed maxSpeed (draws u) ≤ maxSpeed := hk.2
  have hlow : minSpeed * 1000 / 3600 ≤ speedMps (speedKmph minSpeed maxSpeed (draws u)) := by
    unfold speedMps; linarith
  have hhigh : speedMps (speedKmph minSpeed maxSpeed (draws u)) ≤ maxSpeed * 1000 / 3600 := by
    unfold speedMps; linarith
  have hnonneg : 0 ≤ speedMps (speedKmph minSpeed maxSpeed (draws u)) := by
    have : 0 ≤ minSpeed * 1000 / 3600 := by positivity
    linarith
  refine ⟨seedUe Real.cos Real.sin Real.pi minSpeed maxSpeed (draws u),
    seedUes_getElem? _ _ _ _ _ _ _ u hu, hx, hy, rfl, rfl, rfl, ?_, hlow, hhigh⟩
  show Real.sqrt ((speedMps (speedKmph minSpeed maxSpeed (draws u))
      * Real.cos (theta Real.pi (draws u))) ^ 2
    + (speedMps (speedKmph minSpeed maxSpeed (draws u))
      * Real.sin (theta Real.pi (draws u))) ^ 2 + (0 : ℝ) ^ 2) = _
  have hsq : (speedMps (speedKmph minSpeed maxSpeed (draws u))
      * Real.cos (theta Real.pi (draws u))) ^ 2
    + (speedMps (speedKmph minSpeed maxSpeed (draws u))
      * Real.sin (theta Real.pi (draws u))) ^ 2 + (0 : ℝ) ^ 2
      = (speedMps (speedKmph minSpeed maxSpeed (draws u))) ^ 2 := by
    have htrig := Real.cos_sq_add_sin_sq (theta Real.pi (draws u))
    linear_combination (speedMps (speedKmph minSpeed maxSpeed (draws u))) ^ 2 * htrig
  rw [hsq, Real.sqrt_sq hnonneg]

/-- C9 witness: the default speed range `[20, 120]` km/h, one terminal, every sample
equal to one half. -/
theorem kinematics_bounds_default :
    (seedUes Real.cos Real.sin Real.pi 20 120 1 (fun _ => halfDraws ℝ)).length = 1 ∧
    (20 : ℝ) * 1000 / 3600 ≤ speedMps (speedKmph 20 120 (halfDraws ℝ)) ∧
    speedMps (speedKmph (20 : ℝ) 120 (halfDraws ℝ)) ≤ 120 * 1000 / 3600 := by
  have h := kinematics_bounds 20 120 (by norm_num) (by norm_num) 1 (fun _ => halfDraws ℝ)
    (fun _ => by norm_num [Draws.InUnit, halfDraws])
  obtain ⟨s, _, _, _, _, _, _, _, hlow, hhigh⟩ := h.2 0 (by norm_num)
  exact ⟨h.1, hlow, hhigh⟩

/-! ## C10: the speed range is not validated -/

/-- C10 (as stated, refuted): with `minSpeed = 120 > maxSpeed = 20` the program raises
no configuration error; the seeding loop runs, a terminal is generated, and with the
sample one half its speed is drawn as `70` km/h from the inverted range. -/
theorem inverted_speed_range_accepted :
    (20 : ℝ) < 120 ∧
    (¬ ∃ e, seedMobility Real.cos Real.sin Real.pi 120 20 1 (fun _ => halfDraws ℝ)
        = Except.error e) ∧
    seedMobility Real.cos Real.sin Real.pi 120 20 1 (fun _ => halfDraws ℝ)
      = Except.ok [seedUe Real.cos Real.sin Real.pi 120 20 (halfDraws ℝ)] ∧
    speedKmph (120 : ℝ) 20 (halfDraws ℝ) = 70 := by
  refine ⟨by norm_num, ?_, rfl, ?_⟩
  · rintro ⟨e, he⟩
    simp [seedMobility] at he
  · norm_num [speedKmph, GetValue, halfDraws]

/-- C10 (amended): for every configuration with `minSpeed > maxSpeed` the program
raises no configuration error: the seeding loop is reached and generates every
terminal, and each speed is drawn from the inverted range, `maxSpeed < speedKmph <=
minSpeed`. -/
theorem inverted_speed_range_drawn (minSpeed maxSpeed : ℝ) (hinv : maxSpeed < minSpeed)
    (numberOfUes : Nat) (draws : Nat → Draws ℝ) (hdraws : ∀ u, (draws u).InUnit) :
    seedMobility Real.cos Real.sin Real.pi minSpeed maxSpeed numberOfUes draws
      = Except.ok (seedUes Real.cos Real.sin Real.pi minSpeed maxSpeed numberOfUes draws) ∧
    (seedUes Real.cos Real.sin Real.pi minSpeed maxSpeed numberOfUes draws).length
      = numberOfUes ∧
    ∀ u, u < numberOfUes →
      (seedUes Real.cos Real.sin Real.pi minSpeed maxSpeed numberOfUes draws)[u]?
        = some (seedUe Real.cos Real.sin Real.pi minSpeed maxSpeed (draws u)) ∧
      maxSpeed < speedKmph minSpeed maxSpeed (draws u) ∧
      speedKmph minSpeed maxSpeed (draws u) ≤ minSpeed := by
  refine ⟨rfl, by simp [seedUes], ?_⟩
  intro u hu
  obtain ⟨_, _, ⟨hs0, hs1⟩, _⟩ := hdraws u
  exact ⟨seedUes_getElem? _ _ _ _ _ _ _ u hu, GetValue_mem_of_gt hinv hs0 hs1⟩

/-- C10 witness: `minSpeed = 120`, `maxSpeed = 20`, one terminal, every sample equal to
one half. -/
theorem inverted_speed_range_drawn_example :
    (seedUes Real.cos Real.sin Real.pi 120 20 1 (fun _ => halfDraws ℝ)).length = 1 ∧
    (20 : ℝ) < speedKmph 120 20 (halfDraws ℝ) ∧
    speedKmph (120 : ℝ) 20 (halfDraws ℝ) ≤ 120 := by
  have h := inverted_speed_range_drawn 120 20 (by norm_num) 1 (fun _ => halfDraws ℝ)
    (fun _ => by norm_num [Draws.InUnit, halfDraws])
  exact ⟨h.2.1, (h.2.2 0 (by norm_num)).2⟩

/-! ## C11: the sector count is not validated -/

/-- C11 (as stated, refuted): with `numberOfEnbs = 3`, a value other than 21, the
configuration is not rejected and three sector nodes are built, all at the first site,
with orientations 0, 120, 240. -/
theorem three_sectors_accepted :
    (3 : Nat) ≠ 21 ∧
    (¬ ∃ e, buildSectors 3 = Except.error e) ∧
    buildSectors 3
      = Except.ok [(⟨0, 0, 0⟩, 0), (⟨0, 0, 0⟩, 120), (⟨0, 0, 0⟩, 240)] ∧
    (cellGrid 3).length = 3 ∧ (cellGrid 3).length ≠ 21 := by
  refine ⟨by decide, ?_, ?_, by simp [cellGrid], by simp [cellGrid]⟩
  · rintro ⟨e, he⟩
    simp [buildSectors] at he
  · have h0 : enbPosition 0 = ⟨0, 0, 0⟩ := rfl
    have h1 : enbPosition 1 = ⟨0, 0, 0⟩ := rfl
    have h2 : enbPosition 2 = ⟨0, 0, 0⟩ := rfl
    simp only [buildSectors, cellGrid, List.range, List.range.loop, List.map_cons,
      List.map_nil, h0, h1, h2, orientation]
    norm_num

/-- C11 (amended): the program does not validate `numberOfEnbs`: for every configured
value the configuration is accepted and exactly `numberOfEnbs` sector nodes are built,
sector `i` with the position the allocator hands to node `i` and the orientation
`(i mod 3) * 120`; hence the number of sector nodes is `3 * 7 = 21` exactly when
`numberOfEnbs = 21`, which is the default. -/
theorem sector_count_unvalidated (numberOfEnbs : Nat) :
    buildSectors numberOfEnbs = Except.ok (cellGrid numberOfEnbs) ∧
    (cellGrid numberOfEnbs).length = numberOfEnbs ∧
    (∀ i, i < numberOfEnbs →
      (cellGrid numberOfEnbs)[i]? = some (enbPosition i, ((i % 3 : Nat) : ℚ) * 120)) ∧
    ((cellGrid numberOfEnbs).length = 3 * 7 ↔ numberOfEnbs = 21) ∧
    (cellGrid defaultNumberOfEnbs).length = 3 * siteAnchors.length := by
  have hlen : ∀ n, (cellGrid n).length = n := by
    intro n
    simp [cellGrid]
  refine ⟨rfl, hlen _, ?_, ?_, ?_⟩
  · intro i hi
    rw [cellGrid_getElem? numberOfEnbs i hi]
    rfl
  · rw [hlen]
  · rw [hlen]
    rfl

/-! ## Lemmas on the guarded divisions -/

theorem guardedDiv_ok (num den : ℚ) (h : den ≠ 0) :
    guardedDiv num den = Except.ok (num / den) := by
  simp [guardedDiv, h]

theorem anohGuarded_ok (c N : Nat) (d : ℚ) :
    anohGuarded c N d = Except.ok (anoh c N d) ∧ ∀ dv ∈ (anoh c N d).2, dv.den ≠ 0 := by
  by_cases hg : 0 < N ∧ 0 < d
  · have hNq : (0 : ℚ) < (N : ℚ) := by exact_mod_cast hg.1
    have hden : (N : ℚ) * d ≠ 0 := (mul_pos hNq hg.2).ne.symm
    constructor
    · simp only [anohGuarded, anoh, hg, and_self, if_true, guardedDiv_ok _ _ hden]
      rfl
    · intro dv hdv
      simp only [anoh, hg, and_self, if_true, List.mem_singleton] at hdv
      rw [hdv]
      exact hden
  · constructor
    · simp only [anohGuarded, anoh, hg, if_false]
    · intro dv hdv
      simp [anoh, hg] at hdv

theorem optimizeRatioGuarded_ok (thr a : ℚ) :
    optimizeRatioGuarded thr a = Except.ok (optimizeRatio thr a) ∧
    ∀ dv ∈ (optimizeRatio thr a).2, dv.den ≠ 0 := by
  by_cases hg : 0 < a
  · constructor
    · simp only [optimizeRatioGuarded, optimizeRatio, hg, if_true, guardedDiv_ok _ _ hg.ne.symm]
      rfl
    · intro dv hdv
      simp only [optimizeRatio, hg, if_true, List.mem_singleton] at hdv
      rw [hdv]
      exact hg.ne.symm
  · constructor
    · simp only [optimizeRatioGuarded, optimizeRatio, hg, if_false]
    · intro dv hdv
      simp [optimizeRatio, hg] at hdv

theorem totalThroughputMbpsGuarded_ok (total : Nat) (d : ℚ) (hd : d ≠ 0) :
    totalThroughputMbpsGuarded total d = Except.ok (totalThroughputMbps total d) := by
  have hden : d * 1000000 ≠ 0 := mul_ne_zero hd (by norm_num)
  simp only [totalThroughputMbpsGuarded, totalThroughputMbps, guardedDiv_ok _ _ hden]
  rfl

/-! ## C12: division safety of the reduction -/

/-- C12: with every division guarded against a zero denominator, for every list of flow
records, handover count, terminal count `N` and duration `d != 0` the reduction reaches
no division with a zero denominator: it returns the metrics of the unguarded reduction,
and every division it evaluated has a nonzero denominator. The ANOH and ratio divisions
never have a zero denominator, for every `d`. The throughput division is always
evaluated, with denominator `d * 10 ^ 6`, and no test on `d` protects it: at `d = 0` it
is the division that fails. -/
theorem division_safety (stats : List FlowRecord) (c N : Nat) (d : ℚ) :
    (d ≠ 0 →
      reduceMetricsGuarded stats c N d = Except.ok (reduceMetrics stats c N d) ∧
      ∀ dv ∈ (reduceMetrics stats c N d).divisions, dv.den ≠ 0) ∧
    (anohGuarded c N d = Except.ok (anoh c N d) ∧ ∀ dv ∈ (anoh c N d).2, dv.den ≠ 0) ∧
    (∀ thr a : ℚ, optimizeRatioGuarded thr a = Except.ok (optimizeRatio thr a) ∧
      ∀ dv ∈ (optimizeRatio thr a).2, dv.den ≠ 0) ∧
    (totalThroughputMbps (totalDlBytes N stats) d).2
      = [⟨(totalDlBytes N stats : ℚ) * 8, d * 1000000⟩] ∧
    reduceMetricsGuarded stats c N 0
      = Except.error ⟨(totalDlBytes N stats : ℚ) * 8, 0⟩ := by
  refine ⟨?_, anohGuarded_ok c N d, optimizeRatioGuarded_ok, rfl, ?_⟩
  · intro hd
    have hden : d * 1000000 ≠ 0 := mul_ne_zero hd (by norm_num)
    constructor
    · simp only [reduceMetricsGuarded, totalThroughputMbpsGuarded_ok _ d hd,
        (anohGuarded_ok c N d).1, (optimizeRatioGuarded_ok _ _).1]
      rfl
    · intro dv hdv
      simp only [reduceMetrics, List.mem_append] at hdv
      rcases hdv with (hdv | hdv) | hdv
      · simp only [totalThroughputMbps, List.mem_singleton] at hdv
        rw [hdv]
        exact hden
      · exact (anohGuarded_ok c N d).2 dv hdv
      · exact (optimizeRatioGuarded_ok _ _).2 dv hdv
  · simp only [reduceMetricsGuarded, totalThroughputMbpsGuarded, guardedDiv, zero_mul,
      if_true]
    rfl

/-- C12 witness: the literal scenario (`d = 10`) evaluates three divisions, with
denominators `10 ^ 7`, `20` and `1 / 5`, and the guarded reduction succeeds. -/
theorem division_safety_literal :
    reduceMetricsGuarded literalStats 4 2 10 = Except.ok (reduceMetrics literalStats 4 2 10) ∧
    (∀ dv ∈ (reduceMetrics literalStats 4 2 10).divisions, dv.den ≠ 0) ∧
    (reduceMetrics literalStats 4 2 10).divisions.map Division.den = [10000000, 20, 1 / 5] := by
  have h := (division_safety literalStats 4 2 10).1 (by norm_num)
  refine ⟨h.1, h.2, ?_⟩
  have ht : totalDlBytes 2 literalStats = 250000 := by decide
  simp only [reduceMetrics, totalThroughputMbps, anoh, optimizeRatio, ht]
  norm_num

end LenaHandoverSimulation
